import Mathlib

/-!
# Verification of `guest/src/mounts.rs` (boxlite)

A shallow embedding of the essential-tmpfs mounting module of the boxlite
guest. The module has three functions:

* `mount_essential_tmpfs` — the orchestrator: iterates over the fixed table
  `TMPFS_MOUNTS` and calls `mount_tmpfs` for each entry, propagating the
  first error with `?`.
* `mount_tmpfs` — the executor for one entry: skip when `is_tmpfs` reports
  the path already tmpfs-mounted; otherwise create the directory if missing,
  mount tmpfs with empty flags, and set the configured permission bits.
* `is_tmpfs` — the inspector: reads `/proc/mounts`; an unreadable resource
  means "not mounted"; otherwise a line whose second whitespace column equals
  the path and whose third equals `"tmpfs"` means "mounted".

The embedding separates the pure string-level inspector (`is_tmpfs`, taking
the `/proc/mounts` content as `Option String`, `none` = unreadable) from a
state-level model of the kernel environment:

* `World` holds the kernel state visible to the module: whether the mount
  table resource is readable, the kernel mount table (one
  `(mount point, fstype)` pair per mount, most recent first — the kernel
  presents each mount as one line of `/proc/mounts`, rendered by
  `renderLine`), the set of existing paths, and the recorded permission
  bits per path.
* `Oracle` injects the outcomes of the fallible syscalls (`create_dir_all`,
  `mount`, `set_permissions`): `none` = success, `some msg` = failure with
  the given OS cause text.
* `Event` traces the externally visible operations performed, so that
  "no mount and no permission change happened" is expressible.
-/

/-- tmpfs mount configuration (struct `TmpfsMount` in the source). -/
structure TmpfsMount where
  path : String
  mode : Nat
deriving DecidableEq, Repr

/-- Directories that need tmpfs (const `TMPFS_MOUNTS` in the source).
Modes are the octal literals of the source: `0o1777` and `0o755`. -/
def TMPFS_MOUNTS : List TmpfsMount :=
  [{ path := "/tmp", mode := 0o1777 },
   { path := "/var/tmp", mode := 0o1777 },
   { path := "/run", mode := 0o755 }]

/-! ## The string-level inspector -/

/-- Rust `str::split_whitespace`: split a line at every whitespace character
and drop the empty pieces. -/
def splitWhitespace (line : String) : List String :=
  ((line.toList.splitOnP (fun c => c.isWhitespace)).filter
      (fun w => w ≠ [])).map (fun w => String.mk w)

/-- Rust `str::lines`: split the content at newline characters. -/
def contentLines (content : String) : List String :=
  (content.toList.splitOnP (fun c => c = '\n')).map (fun l => String.mk l)

/-- The per-line test of the `is_tmpfs` loop:
`parts.len() >= 3 && parts[1] == path_str && parts[2] == "tmpfs"`. -/
def lineMatches (line : String) (path : String) : Bool :=
  let parts := splitWhitespace line
  decide (3 ≤ parts.length) && (parts.getD 1 "" == path) && (parts.getD 2 "" == "tmpfs")

/-- The loop of `is_tmpfs` over the lines of the mount-table content:
return `true` on the first matching line, `false` when no line matches. -/
def anyLineMatches (ls : List String) (path : String) : Bool :=
  ls.any (fun l => lineMatches l path)

/-- `is_tmpfs` from the source, with the `fs::read_to_string("/proc/mounts")`
result passed in: `none` is the `Err(_)` branch (resource unreadable, treated
as "not mounted"), `some content` is the `Ok(content)` branch. The `Result`
return type of the source is kept as `Except String Bool`. -/
def is_tmpfs (proc : Option String) (path : String) : Except String Bool :=
  match proc with
  | none => Except.ok false
  | some content => Except.ok (anyLineMatches (contentLines content) path)

/-! ## The kernel-environment model -/

/-- Kernel state visible to the module. `mountTable` lists the kernel mount
table as `(mount point, fstype)` pairs, most recent mount first. -/
structure World where
  procReadable : Bool
  mountTable : List (String × String)
  dirs : List String
  perms : List (String × Nat)
deriving DecidableEq, Repr

/-- Kernel model: one `/proc/mounts` line per mount-table entry, in the
format `device mountpoint fstype options dump pass`. -/
def renderLine (e : String × String) : String :=
  "tmpfs " ++ e.1 ++ " " ++ e.2 ++ " rw 0 0"

/-- Kernel model: reading `/proc/mounts` yields its lines when the resource
is readable, and fails (`none`) otherwise. -/
def readProcLines (w : World) : Option (List String) :=
  if w.procReadable then some (w.mountTable.map renderLine) else none

/-- The inspector applied to the live kernel state: `is_tmpfs` with its
read of `/proc/mounts` taken from the `World`. -/
def is_tmpfs_at (w : World) (path : String) : Except String Bool :=
  match readProcLines w with
  | none => Except.ok false
  | some ls => Except.ok (anyLineMatches ls path)

/-- Outcomes of the fallible syscalls used by `mount_tmpfs`:
`none` = the call succeeds, `some msg` = it fails with OS cause `msg`. -/
structure Oracle where
  mkdirErr : String → Option String
  mountErr : String → Option String
  chmodErr : String → Option String

/-- Externally visible operations performed by the module. `readDiag` is the
diagnostic `fs::read_to_string("/proc/mounts")` attempted after a mount
failure. -/
inductive Event where
  | mkdir (path : String)
  | mountOp (source : String) (target : String) (fstype : String)
      (flags : List String) (data : Option String)
  | chmod (path : String) (mode : Nat)
  | readDiag
deriving DecidableEq, Repr

/-- `Path::exists`: a path exists when it was created as a directory or is a
mount point of the kernel mount table. -/
def pathExists (w : World) (p : String) : Bool :=
  w.dirs.contains p || w.mountTable.any (fun e => e.1 == p)

/-- Recorded permission bits of a path (most recent `set_permissions` wins). -/
def lookupPerm (ps : List (String × Nat)) (p : String) : Option Nat :=
  (ps.find? (fun e => e.1 == p)).map (fun e => e.2)

/-- Permission bits of a path in a world. -/
def permOf (w : World) (p : String) : Option Nat :=
  lookupPerm w.perms p

/-- Result of running one step or the whole orchestrator: the returned
`BoxliteResult<()>`, the kernel state afterwards, and the trace of
operations performed. -/
structure Outcome where
  result : Except String Unit
  world : World
  trace : List Event
deriving Repr

/-- The `if !path.exists() { fs::create_dir_all(path) ... }` step of
`mount_tmpfs`. -/
def ensureDir (o : Oracle) (cfg : TmpfsMount) (w : World) :
    Except String (World × List Event) :=
  if pathExists w cfg.path then Except.ok (w, [])
  else
    match o.mkdirErr cfg.path with
    | some m => Except.error ("Failed to create " ++ cfg.path ++ ": " ++ m)
    | none => Except.ok ({ w with dirs := cfg.path :: w.dirs }, [Event.mkdir cfg.path])

/-- `mount_tmpfs` from the source. Branches, in source order:
skip when `is_tmpfs` reports the path already tmpfs (the `?` on
`is_tmpfs(path)?` would propagate an error, kept as the first branch);
create the directory if missing; call
`mount(Some("tmpfs"), path, Some("tmpfs"), MsFlags::empty(), None)` —
on failure attempt the diagnostic read of `/proc/mounts` and return the
mount error; finally `fs::set_permissions(path, from_mode(cfg.mode))`. -/
def mount_tmpfs (o : Oracle) (cfg : TmpfsMount) (w : World) : Outcome :=
  match is_tmpfs_at w cfg.path with
  | Except.error e => { result := Except.error e, world := w, trace := [] }
  | Except.ok true => { result := Except.ok (), world := w, trace := [] }
  | Except.ok false =>
    match ensureDir o cfg w with
    | Except.error e => { result := Except.error e, world := w, trace := [] }
    | Except.ok (w1, t1) =>
      match o.mountErr cfg.path with
      | some m =>
        { result := Except.error ("Failed to mount tmpfs on " ++ cfg.path ++ ": " ++ m),
          world := w1,
          trace := t1 ++ [Event.readDiag] }
      | none =>
        let w2 : World := { w1 with mountTable := (cfg.path, "tmpfs") :: w1.mountTable }
        let t2 : List Event :=
          t1 ++ [Event.mountOp "tmpfs" cfg.path "tmpfs" [] none]
        match o.chmodErr cfg.path with
        | some m =>
          { result := Except.error ("Failed to set permissions on " ++ cfg.path ++ ": " ++ m),
            world := w2,
            trace := t2 }
        | none =>
          { result := Except.ok (),
            world := { w2 with perms := (cfg.path, cfg.mode) :: w2.perms },
            trace := t2 ++ [Event.chmod cfg.path cfg.mode] }

/-- The `for mount_cfg in TMPFS_MOUNTS { mount_tmpfs(mount_cfg)?; }` loop,
over an explicit entry list: stop at the first error, thread the kernel
state, concatenate the traces. -/
def runMounts (o : Oracle) : List TmpfsMount → World → Outcome
  | [], w => { result := Except.ok (), world := w, trace := [] }
  | cfg :: rest, w =>
    let out := mount_tmpfs o cfg w
    match out.result with
    | Except.error e => { result := Except.error e, world := out.world, trace := out.trace }
    | Except.ok _ =>
      let out2 := runMounts o rest out.world
      { result := out2.result, world := out2.world, trace := out.trace ++ out2.trace }

/-- `mount_essential_tmpfs` from the source: run the loop over the fixed
table `TMPFS_MOUNTS`. -/
def mount_essential_tmpfs (o : Oracle) (w : World) : Outcome :=
  runMounts o TMPFS_MOUNTS w

/-- The boolean answer of the inspector on a live world: resource readable
and some mount-table line matches. `is_tmpfs_at w p = Except.ok
(alreadyTmpfs w p)` is proved below. -/
def alreadyTmpfs (w : World) (p : String) : Bool :=
  w.procReadable && anyLineMatches (w.mountTable.map renderLine) p

/-! ## Concrete worlds and oracles used as witnesses -/

/-- The oracle on which every syscall succeeds. -/
def oracleOk : Oracle :=
  { mkdirErr := fun _ => none, mountErr := fun _ => none, chmodErr := fun _ => none }

/-- The oracle on which `mount` fails on `/var/tmp` with cause `ENODEV` and
every other syscall succeeds. -/
def oracleMountFailVarTmp : Oracle :=
  { mkdirErr := fun _ => none,
    mountErr := fun p => if p == "/var/tmp" then some "ENODEV" else none,
    chmodErr := fun _ => none }

/-- The oracle on which `create_dir_all` fails with cause `EACCES`. -/
def oracleMkdirFail : Oracle :=
  { mkdirErr := fun _ => some "EACCES", mountErr := fun _ => none,
    chmodErr := fun _ => none }

/-- The oracle on which `set_permissions` fails with cause `EPERM` and every
other syscall succeeds. -/
def oracleChmodFail : Oracle :=
  { mkdirErr := fun _ => none, mountErr := fun _ => none,
    chmodErr := fun _ => some "EPERM" }

/-- A clean boot state: `/proc/mounts` readable, nothing mounted, no
directories, no recorded permission bits. -/
def wClean : World :=
  { procReadable := true, mountTable := [], dirs := [], perms := [] }

/-- A partially-mounted state: `/tmp` is already tmpfs-mounted but carries
permission bits `0o777`, different from the configured `0o1777`. -/
def wAlready : World :=
  { procReadable := true, mountTable := [("/tmp", "tmpfs")], dirs := ["/tmp"],
    perms := [("/tmp", 0o777)] }

/-- A state in which the kernel mount-table resource is unreadable (for
example very early in boot, before `/proc` is mounted). -/
def wUnread : World :=
  { procReadable := false, mountTable := [], dirs := [], perms := [] }

/-- Two mount-table entries with separated paths: neither entry's rendered
mount line matches the other's path, and the paths differ. -/
def SepEntries (c1 c2 : TmpfsMount) : Prop :=
  lineMatches (renderLine (c1.path, "tmpfs")) c2.path = false ∧
  lineMatches (renderLine (c2.path, "tmpfs")) c1.path = false ∧
  (c1.path == c2.path) = false ∧ (c2.path == c1.path) = false

instance (c1 c2 : TmpfsMount) : Decidable (SepEntries c1 c2) := by
  unfold SepEntries
  infer_instance

/-! ## Helper lemmas -/

theorem is_tmpfs_at_eq (w : World) (p : String) :
    is_tmpfs_at w p = Except.ok (alreadyTmpfs w p) := by
  cases hp : w.procReadable <;>
    simp [is_tmpfs_at, readProcLines, alreadyTmpfs, hp]

theorem is_tmpfs_at_isOk (w : World) (p : String) :
    ∃ b, is_tmpfs_at w p = Except.ok b :=
  ⟨alreadyTmpfs w p, is_tmpfs_at_eq w p⟩

theorem is_tmpfs_at_true_of (w : World) (p : String)
    (h : alreadyTmpfs w p = true) : is_tmpfs_at w p = Except.ok true := by
  rw [is_tmpfs_at_eq, h]

theorem is_tmpfs_at_false_of (w : World) (p : String)
    (h : alreadyTmpfs w p = false) : is_tmpfs_at w p = Except.ok false := by
  rw [is_tmpfs_at_eq, h]

theorem alreadyTmpfs_of_is_tmpfs_at_true (w : World) (p : String)
    (h : is_tmpfs_at w p = Except.ok true) : alreadyTmpfs w p = true := by
  rw [is_tmpfs_at_eq] at h
  exact Except.ok.inj h

theorem alreadyTmpfs_of_is_tmpfs_at_false (w : World) (p : String)
    (h : is_tmpfs_at w p = Except.ok false) : alreadyTmpfs w p = false := by
  rw [is_tmpfs_at_eq] at h
  exact Except.ok.inj h

theorem ensureDir_exists (o : Oracle) (cfg : TmpfsMount) (w : World)
    (h : pathExists w cfg.path = true) : ensureDir o cfg w = Except.ok (w, []) := by
  unfold ensureDir
  rw [h]
  rfl

theorem ensureDir_mkdir (o : Oracle) (cfg : TmpfsMount) (w : World)
    (h : pathExists w cfg.path = false) (hm : o.mkdirErr cfg.path = none) :
    ensureDir o cfg w =
      Except.ok ({ w with dirs := cfg.path :: w.dirs }, [Event.mkdir cfg.path]) := by
  unfold ensureDir
  rw [h, hm]
  rfl

theorem ensureDir_fail (o : Oracle) (cfg : TmpfsMount) (w : World) (m : String)
    (h : pathExists w cfg.path = false) (hm : o.mkdirErr cfg.path = some m) :
    ensureDir o cfg w =
      Except.error ("Failed to create " ++ cfg.path ++ ": " ++ m) := by
  unfold ensureDir
  rw [h, hm]
  rfl

theorem ensureDir_ok_fields (o : Oracle) (cfg : TmpfsMount) (w w1 : World)
    (t1 : List Event) (h : ensureDir o cfg w = Except.ok (w1, t1)) :
    w1.procReadable = w.procReadable ∧ w1.mountTable = w.mountTable ∧
      w1.perms = w.perms ∧ (w1.dirs = w.dirs ∨ w1.dirs = cfg.path :: w.dirs) := by
  unfold ensureDir at h
  by_cases hex : pathExists w cfg.path = true
  · rw [if_pos hex] at h
    obtain ⟨rfl, -⟩ : w = w1 ∧ [] = t1 := by
      have := Except.ok.inj h
      exact ⟨congrArg Prod.fst this, congrArg Prod.snd this⟩
    exact ⟨rfl, rfl, rfl, Or.inl rfl⟩
  · rw [if_neg hex] at h
    cases hm : o.mkdirErr cfg.path with
    | some m => rw [hm] at h; exact absurd h (by simp)
    | none =>
      rw [hm] at h
      have heq := Except.ok.inj h
      have hw : ({ w with dirs := cfg.path :: w.dirs } : World) = w1 :=
        congrArg Prod.fst heq
      rw [← hw]
      exact ⟨rfl, rfl, rfl, Or.inr rfl⟩

theorem mount_tmpfs_skip (o : Oracle) (cfg : TmpfsMount) (w : World)
    (h : is_tmpfs_at w cfg.path = Except.ok true) :
    mount_tmpfs o cfg w = { result := Except.ok (), world := w, trace := [] } := by
  unfold mount_tmpfs
  rw [h]

theorem mount_tmpfs_dir_err (o : Oracle) (cfg : TmpfsMount) (w : World) (e : String)
    (h : is_tmpfs_at w cfg.path = Except.ok false)
    (hd : ensureDir o cfg w = Except.error e) :
    mount_tmpfs o cfg w = { result := Except.error e, world := w, trace := [] } := by
  unfold mount_tmpfs
  rw [h, hd]

theorem mount_tmpfs_mount_err (o : Oracle) (cfg : TmpfsMount) (w w1 : World)
    (t1 : List Event) (m : String)
    (h : is_tmpfs_at w cfg.path = Except.ok false)
    (hd : ensureDir o cfg w = Except.ok (w1, t1))
    (hm : o.mountErr cfg.path = some m) :
    mount_tmpfs o cfg w =
      { result := Except.error ("Failed to mount tmpfs on " ++ cfg.path ++ ": " ++ m),
        world := w1, trace := t1 ++ [Event.readDiag] } := by
  unfold mount_tmpfs
  rw [h, hd, hm]

theorem mount_tmpfs_chmod_err (o : Oracle) (cfg : TmpfsMount) (w w1 : World)
    (t1 : List Event) (m : String)
    (h : is_tmpfs_at w cfg.path = Except.ok false)
    (hd : ensureDir o cfg w = Except.ok (w1, t1))
    (hm : o.mountErr cfg.path = none)
    (hc : o.chmodErr cfg.path = some m) :
    mount_tmpfs o cfg w =
      { result := Except.error ("Failed to set permissions on " ++ cfg.path ++ ": " ++ m),
        world := { w1 with mountTable := (cfg.path, "tmpfs") :: w1.mountTable },
        trace := t1 ++ [Event.mountOp "tmpfs" cfg.path "tmpfs" [] none] } := by
  unfold mount_tmpfs
  rw [h, hd, hm, hc]

theorem mount_tmpfs_go_ok (o : Oracle) (cfg : TmpfsMount) (w w1 : World)
    (t1 : List Event)
    (h : is_tmpfs_at w cfg.path = Except.ok false)
    (hd : ensureDir o cfg w = Except.ok (w1, t1))
    (hm : o.mountErr cfg.path = none)
    (hc : o.chmodErr cfg.path = none) :
    mount_tmpfs o cfg w =
      { result := Except.ok (),
        world := { w1 with mountTable := (cfg.path, "tmpfs") :: w1.mountTable,
                           perms := (cfg.path, cfg.mode) :: w1.perms },
        trace := t1 ++ [Event.mountOp "tmpfs" cfg.path "tmpfs" [] none]
                    ++ [Event.chmod cfg.path cfg.mode] } := by
  unfold mount_tmpfs
  rw [h, hd, hm, hc]

theorem mount_tmpfs_ok_cases (o : Oracle) (cfg : TmpfsMount) (w : World)
    (hok : (mount_tmpfs o cfg w).result = Except.ok ()) :
    (is_tmpfs_at w cfg.path = Except.ok true ∧
      mount_tmpfs o cfg w = { result := Except.ok (), world := w, trace := [] }) ∨
    (is_tmpfs_at w cfg.path = Except.ok false ∧
      ∃ w1 t1, ensureDir o cfg w = Except.ok (w1, t1) ∧
        o.mountErr cfg.path = none ∧ o.chmodErr cfg.path = none ∧
        mount_tmpfs o cfg w =
          { result := Except.ok (),
            world := { w1 with mountTable := (cfg.path, "tmpfs") :: w1.mountTable,
                               perms := (cfg.path, cfg.mode) :: w1.perms },
            trace := t1 ++ [Event.mountOp "tmpfs" cfg.path "tmpfs" [] none]
                        ++ [Event.chmod cfg.path cfg.mode] }) := by
  obtain ⟨b, hb⟩ := is_tmpfs_at_isOk w cfg.path
  cases b
  · right
    refine ⟨hb, ?_⟩
    cases hd : ensureDir o cfg w with
    | error e =>
      rw [mount_tmpfs_dir_err o cfg w e hb hd] at hok
      exact absurd hok (by simp)
    | ok p =>
      obtain ⟨w1, t1⟩ := p
      refine ⟨w1, t1, rfl, ?_⟩
      cases hm : o.mountErr cfg.path with
      | some m =>
        rw [mount_tmpfs_mount_err o cfg w w1 t1 m hb hd hm] at hok
        exact absurd hok (by simp)
      | none =>
        cases hc : o.chmodErr cfg.path with
        | some m =>
          rw [mount_tmpfs_chmod_err o cfg w w1 t1 m hb hd hm hc] at hok
          exact absurd hok (by simp)
        | none =>
          exact ⟨rfl, rfl, mount_tmpfs_go_ok o cfg w w1 t1 hb hd hm hc⟩
  · exact Or.inl ⟨hb, mount_tmpfs_skip o cfg w hb⟩

theorem mount_tmpfs_shape (o : Oracle) (cfg : TmpfsMount) (w : World) :
    (mount_tmpfs o cfg w).world.procReadable = w.procReadable ∧
    (∃ l, (mount_tmpfs o cfg w).world.mountTable = l ++ w.mountTable) ∧
    (∃ d, (mount_tmpfs o cfg w).world.dirs = d ++ w.dirs) ∧
    (∃ q, (mount_tmpfs o cfg w).world.perms = q ++ w.perms) := by
  obtain ⟨b, hb⟩ := is_tmpfs_at_isOk w cfg.path
  cases b
  · cases hd : ensureDir o cfg w with
    | error e =>
      rw [mount_tmpfs_dir_err o cfg w e hb hd]
      exact ⟨rfl, ⟨[], rfl⟩, ⟨[], rfl⟩, ⟨[], rfl⟩⟩
    | ok p =>
      obtain ⟨w1, t1⟩ := p
      obtain ⟨hp, ht, hq, hdir⟩ := ensureDir_ok_fields o cfg w w1 t1 hd
      have hdirs : ∃ d, w1.dirs = d ++ w.dirs := by
        cases hdir with
        | inl h => exact ⟨[], by rw [h]; rfl⟩
        | inr h => exact ⟨[cfg.path], by rw [h]; rfl⟩
      obtain ⟨d, hdirs⟩ := hdirs
      cases hm : o.mountErr cfg.path with
      | some m =>
        rw [mount_tmpfs_mount_err o cfg w w1 t1 m hb hd hm]
        exact ⟨hp, ⟨[], by rw [ht]; rfl⟩, ⟨d, hdirs⟩, ⟨[], by rw [hq]; rfl⟩⟩
      | none =>
        cases hc : o.chmodErr cfg.path with
        | some m =>
          rw [mount_tmpfs_chmod_err o cfg w w1 t1 m hb hd hm hc]
          exact ⟨hp, ⟨[(cfg.path, "tmpfs")], by rw [ht]; rfl⟩, ⟨d, hdirs⟩,
            ⟨[], by rw [hq]; rfl⟩⟩
        | none =>
          rw [mount_tmpfs_go_ok o cfg w w1 t1 hb hd hm hc]
          exact ⟨hp, ⟨[(cfg.path, "tmpfs")], by rw [ht]; rfl⟩, ⟨d, hdirs⟩,
            ⟨[(cfg.path, cfg.mode)], by rw [hq]; rfl⟩⟩
  · rw [mount_tmpfs_skip o cfg w hb]
    exact ⟨rfl, ⟨[], rfl⟩, ⟨[], rfl⟩, ⟨[], rfl⟩⟩

theorem runMounts_nil (o : Oracle) (w : World) :
    runMounts o [] w = { result := Except.ok (), world := w, trace := [] } := rfl

theorem runMounts_cons_err (o : Oracle) (c : TmpfsMount) (r : List TmpfsMount)
    (w : World) (e : String) (h : (mount_tmpfs o c w).result = Except.error e) :
    runMounts o (c :: r) w =
      { result := Except.error e, world := (mount_tmpfs o c w).world,
        trace := (mount_tmpfs o c w).trace } := by
  simp only [runMounts]
  rw [h]

theorem runMounts_cons_ok (o : Oracle) (c : TmpfsMount) (r : List TmpfsMount)
    (w : World) (h : (mount_tmpfs o c w).result = Except.ok ()) :
    runMounts o (c :: r) w =
      { result := (runMounts o r (mount_tmpfs o c w).world).result,
        world := (runMounts o r (mount_tmpfs o c w).world).world,
        trace := (mount_tmpfs o c w).trace
                  ++ (runMounts o r (mount_tmpfs o c w).world).trace } := by
  simp only [runMounts]
  rw [h]

theorem runMounts_ok_head (o : Oracle) (c : TmpfsMount) (r : List TmpfsMount)
    (w : World) (h : (runMounts o (c :: r) w).result = Except.ok ()) :
    (mount_tmpfs o c w).result = Except.ok () := by
  cases hr : (mount_tmpfs o c w).result with
  | error e =>
    rw [runMounts_cons_err o c r w e hr] at h
    exact absurd h (by simp)
  | ok u => cases u; rfl

theorem runMounts_ok_tail (o : Oracle) (c : TmpfsMount) (r : List TmpfsMount)
    (w : World) (h : (runMounts o (c :: r) w).result = Except.ok ()) :
    (runMounts o r (mount_tmpfs o c w).world).result = Except.ok () := by
  rw [runMounts_cons_ok o c r w (runMounts_ok_head o c r w h)] at h
  exact h

theorem anyLineMatches_append (l1 l2 : List String) (p : String) :
    anyLineMatches (l1 ++ l2) p = (anyLineMatches l1 p || anyLineMatches l2 p) := by
  simp [anyLineMatches]

theorem alreadyTmpfs_mono (w w' : World) (p : String)
    (hp : w'.procReadable = w.procReadable)
    (ht : ∃ l, w'.mountTable = l ++ w.mountTable)
    (h : alreadyTmpfs w p = true) : alreadyTmpfs w' p = true := by
  obtain ⟨l, hl⟩ := ht
  unfold alreadyTmpfs at h ⊢
  rw [hp, hl, List.map_append, anyLineMatches_append]
  rcases Bool.and_eq_true _ _ |>.mp h with ⟨h1, h2⟩
  rw [h1, h2]
  simp

theorem alreadyTmpfs_cons (w' w : World) (q t : String) (p : String)
    (hp : w'.procReadable = w.procReadable)
    (ht : w'.mountTable = (q, t) :: w.mountTable) :
    alreadyTmpfs w' p =
      (w.procReadable && (lineMatches (renderLine (q, t)) p || anyLineMatches (w.mountTable.map renderLine) p)) := by
  unfold alreadyTmpfs
  rw [hp, ht]
  simp [anyLineMatches]

theorem alreadyTmpfs_cons_ne (w' w : World) (q t : String) (p : String)
    (hp : w'.procReadable = w.procReadable)
    (ht : w'.mountTable = (q, t) :: w.mountTable)
    (hne : lineMatches (renderLine (q, t)) p = false) :
    alreadyTmpfs w' p = alreadyTmpfs w p := by
  rw [alreadyTmpfs_cons w' w q t p hp ht, hne]
  simp [alreadyTmpfs]

theorem step_preserves_alreadyTmpfs_ne (o : Oracle) (cfg : TmpfsMount) (w : World)
    (p : String) (hok : (mount_tmpfs o cfg w).result = Except.ok ())
    (hne : lineMatches (renderLine (cfg.path, "tmpfs")) p = false) :
    alreadyTmpfs (mount_tmpfs o cfg w).world p = alreadyTmpfs w p := by
  rcases mount_tmpfs_ok_cases o cfg w hok with ⟨-, heq⟩ | ⟨-, w1, t1, hd, -, -, heq⟩
  · rw [heq]
  · obtain ⟨hp, ht, -, -⟩ := ensureDir_ok_fields o cfg w w1 t1 hd
    rw [heq]
    exact alreadyTmpfs_cons_ne _ w cfg.path "tmpfs" p hp (by rw [ht]) hne

theorem step_alreadyTmpfs_self (o : Oracle) (cfg : TmpfsMount) (w : World)
    (hok : (mount_tmpfs o cfg w).result = Except.ok ())
    (hproc : w.procReadable = true)
    (hline : lineMatches (renderLine (cfg.path, "tmpfs")) cfg.path = true) :
    alreadyTmpfs (mount_tmpfs o cfg w).world cfg.path = true := by
  rcases mount_tmpfs_ok_cases o cfg w hok with ⟨hb, heq⟩ | ⟨-, w1, t1, hd, -, -, heq⟩
  · rw [heq]
    exact alreadyTmpfs_of_is_tmpfs_at_true w cfg.path hb
  · obtain ⟨hp, ht, -, -⟩ := ensureDir_ok_fields o cfg w w1 t1 hd
    have hw : (mount_tmpfs o cfg w).world =
        { w1 with mountTable := (cfg.path, "tmpfs") :: w1.mountTable,
                  perms := (cfg.path, cfg.mode) :: w1.perms } := by rw [heq]
    simp [hw, alreadyTmpfs, anyLineMatches, hp, hproc, hline]

theorem step_mem_mountTable (o : Oracle) (cfg : TmpfsMount) (w : World)
    (x : String × String) (h : x ∈ w.mountTable) :
    x ∈ (mount_tmpfs o cfg w).world.mountTable := by
  obtain ⟨-, ⟨l, hl⟩, -, -⟩ := mount_tmpfs_shape o cfg w
  rw [hl]
  exact List.mem_append_right l h

theorem pathExists_of_mem (w : World) (p t : String)
    (h : (p, t) ∈ w.mountTable) : pathExists w p = true := by
  unfold pathExists
  have : w.mountTable.any (fun e => e.1 == p) = true :=
    List.any_eq_true.mpr ⟨(p, t), h, by simp⟩
  rw [this]
  simp

theorem lookupPerm_cons_ne (q : String) (m : Nat) (ps : List (String × Nat))
    (p : String) (hne : (q == p) = false) :
    lookupPerm ((q, m) :: ps) p = lookupPerm ps p := by
  unfold lookupPerm
  rw [List.find?_cons_of_neg]
  simp [hne]

theorem step_preserves_permOf_ne (o : Oracle) (cfg : TmpfsMount) (w : World)
    (p : String) (hok : (mount_tmpfs o cfg w).result = Except.ok ())
    (hne : (cfg.path == p) = false) :
    permOf (mount_tmpfs o cfg w).world p = permOf w p := by
  rcases mount_tmpfs_ok_cases o cfg w hok with ⟨-, heq⟩ | ⟨-, w1, t1, hd, -, -, heq⟩
  · rw [heq]
  · obtain ⟨-, -, hq, -⟩ := ensureDir_ok_fields o cfg w w1 t1 hd
    have hw : (mount_tmpfs o cfg w).world =
        { w1 with mountTable := (cfg.path, "tmpfs") :: w1.mountTable,
                  perms := (cfg.path, cfg.mode) :: w1.perms } := by rw [heq]
    rw [hw]
    unfold permOf
    rw [show ({ w1 with mountTable := (cfg.path, "tmpfs") :: w1.mountTable,
                        perms := (cfg.path, cfg.mode) :: w1.perms } : World).perms
          = (cfg.path, cfg.mode) :: w1.perms from rfl]
    rw [lookupPerm_cons_ne cfg.path cfg.mode w1.perms p hne, hq]

theorem step_permOf_self (o : Oracle) (cfg : TmpfsMount) (w : World)
    (hok : (mount_tmpfs o cfg w).result = Except.ok ())
    (hnot : alreadyTmpfs w cfg.path = false) :
    permOf (mount_tmpfs o cfg w).world cfg.path = some cfg.mode := by
  rcases mount_tmpfs_ok_cases o cfg w hok with ⟨hb, -⟩ | ⟨-, w1, t1, hd, -, -, heq⟩
  · rw [alreadyTmpfs_of_is_tmpfs_at_true w cfg.path hb] at hnot
    exact absurd hnot (by simp)
  · have hw : (mount_tmpfs o cfg w).world =
        { w1 with mountTable := (cfg.path, "tmpfs") :: w1.mountTable,
                  perms := (cfg.path, cfg.mode) :: w1.perms } := by rw [heq]
    rw [hw]
    unfold permOf lookupPerm
    simp

theorem runMounts_shape (o : Oracle) (l : List TmpfsMount) : ∀ w : World,
    (runMounts o l w).world.procReadable = w.procReadable ∧
    (∃ l2, (runMounts o l w).world.mountTable = l2 ++ w.mountTable) := by
  induction l with
  | nil => intro w; exact ⟨rfl, ⟨[], rfl⟩⟩
  | cons c r ih =>
    intro w
    cases hr : (mount_tmpfs o c w).result with
    | error e =>
      rw [runMounts_cons_err o c r w e hr]
      obtain ⟨hp, ht, -, -⟩ := mount_tmpfs_shape o c w
      exact ⟨hp, ht⟩
    | ok u =>
      cases u
      rw [runMounts_cons_ok o c r w hr]
      obtain ⟨hp1, ⟨l1, ht1⟩, -, -⟩ := mount_tmpfs_shape o c w
      obtain ⟨hp2, ⟨l2, ht2⟩⟩ := ih (mount_tmpfs o c w).world
      refine ⟨by rw [hp2, hp1], ⟨l2 ++ l1, ?_⟩⟩
      rw [ht2, ht1, List.append_assoc]

theorem runMounts_fail_fast (o : Oracle) (l1 : List TmpfsMount) :
    ∀ (w : World) (cfg : TmpfsMount) (l2 : List TmpfsMount) (e : String),
    (runMounts o l1 w).result = Except.ok () →
    (mount_tmpfs o cfg (runMounts o l1 w).world).result = Except.error e →
    runMounts o (l1 ++ cfg :: l2) w =
      { result := Except.error e,
        world := (mount_tmpfs o cfg (runMounts o l1 w).world).world,
        trace := (runMounts o l1 w).trace
                  ++ (mount_tmpfs o cfg (runMounts o l1 w).world).trace } := by
  induction l1 with
  | nil =>
    intro w cfg l2 e hpre hfail
    rw [runMounts_nil] at hfail
    rw [List.nil_append, runMounts_cons_err o cfg l2 w e hfail, runMounts_nil]
    simp
  | cons c r ih =>
    intro w cfg l2 e hpre hfail
    have hc : (mount_tmpfs o c w).result = Except.ok () :=
      runMounts_ok_head o c r w hpre
    have hr : (runMounts o r (mount_tmpfs o c w).world).result = Except.ok () :=
      runMounts_ok_tail o c r w hpre
    have hfail2 :
        (mount_tmpfs o cfg (runMounts o r (mount_tmpfs o c w).world).world).result
          = Except.error e := by
      rw [runMounts_cons_ok o c r w hc] at hfail
      exact hfail
    rw [List.cons_append, runMounts_cons_ok o c (r ++ cfg :: l2) w hc,
      ih (mount_tmpfs o c w).world cfg l2 e hr hfail2,
      runMounts_cons_ok o c r w hc]
    simp

theorem lineMatches_self_tmp :
    lineMatches (renderLine ("/tmp", "tmpfs")) "/tmp" = true := by decide

theorem lineMatches_self_vartmp :
    lineMatches (renderLine ("/var/tmp", "tmpfs")) "/var/tmp" = true := by decide

theorem lineMatches_self_run :
    lineMatches (renderLine ("/run", "tmpfs")) "/run" = true := by decide

theorem ensureDir_ok_trace (o : Oracle) (cfg : TmpfsMount) (w w1 : World)
    (t1 : List Event) (h : ensureDir o cfg w = Except.ok (w1, t1)) :
    t1 = [] ∨ t1 = [Event.mkdir cfg.path] := by
  unfold ensureDir at h
  by_cases hex : pathExists w cfg.path = true
  · rw [if_pos hex] at h
    have := Except.ok.inj h
    exact Or.inl (congrArg Prod.snd this).symm
  · rw [if_neg hex] at h
    cases hm : o.mkdirErr cfg.path with
    | some m => rw [hm] at h; exact absurd h (by simp)
    | none =>
      rw [hm] at h
      have := Except.ok.inj h
      exact Or.inr (congrArg Prod.snd this).symm

theorem lineMatches_iff (line path : String) :
    lineMatches line path = true ↔
      3 ≤ (splitWhitespace line).length ∧
      (splitWhitespace line)[1]? = some path ∧
      (splitWhitespace line)[2]? = some "tmpfs" := by
  unfold lineMatches
  simp only [Bool.and_eq_true, decide_eq_true_eq, beq_iff_eq]
  constructor
  · rintro ⟨⟨h3, h1⟩, h2⟩
    refine ⟨h3, ?_, ?_⟩
    · rw [List.getElem?_eq_getElem (by omega),
        ← List.getD_eq_getElem (splitWhitespace line) "" (by omega), h1]
    · rw [List.getElem?_eq_getElem (by omega),
        ← List.getD_eq_getElem (splitWhitespace line) "" (by omega), h2]
  · rintro ⟨h3, h1, h2⟩
    refine ⟨⟨h3, ?_⟩, ?_⟩
    · rw [List.getD_eq_getElem?_getD, h1]
      rfl
    · rw [List.getD_eq_getElem?_getD, h2]
      rfl

/-! ## Claim theorems -/

/-- C7: the mount table is the fixed constant with exactly the three entries
`("/tmp", 0o1777)`, `("/var/tmp", 0o1777)`, `("/run", 0o755)` in this order.
It is a Lean `def` (a Rust `const`), so it cannot be mutated at runtime. -/
theorem TMPFS_MOUNTS_spec :
    TMPFS_MOUNTS =
      [{ path := "/tmp", mode := 0o1777 }, { path := "/var/tmp", mode := 0o1777 },
       { path := "/run", mode := 0o755 }] ∧ TMPFS_MOUNTS.length = 3 :=
  ⟨rfl, rfl⟩

/-- C4: when the kernel mount-table resource cannot be read at all, the
inspector `is_tmpfs` returns `Ok(false)` ("not mounted") for every queried
path, never an error. -/
theorem is_tmpfs_unreadable_false :
    ∀ p : String, is_tmpfs none p = Except.ok false :=
  fun _ => rfl

/-- C9: `is_tmpfs` is total: for every queried path and every state of the
mount-table resource (missing or unreadable = `none`, arbitrary text =
`some content`) it returns `Ok(true)` or `Ok(false)`; its error branch is
unreachable. -/
theorem is_tmpfs_total :
    ∀ (proc : Option String) (p : String), ∃ b, is_tmpfs proc p = Except.ok b := by
  intro proc p
  cases proc <;> exact ⟨_, rfl⟩

/-- C5: on readable content, `is_tmpfs` returns `Ok(true)` iff some line,
split on whitespace, has at least three columns with the second column equal
to the queried path by exact string equality and the third exactly `"tmpfs"`;
and the inspection never fails (lines with fewer than three columns are
skipped, not errors). -/
theorem is_tmpfs_readable_spec (c p : String) :
    (is_tmpfs (some c) p = Except.ok true ↔
      ∃ line ∈ contentLines c,
        3 ≤ (splitWhitespace line).length ∧
        (splitWhitespace line)[1]? = some p ∧
        (splitWhitespace line)[2]? = some "tmpfs") ∧
    (∃ b, is_tmpfs (some c) p = Except.ok b) := by
  refine ⟨?_, ⟨_, rfl⟩⟩
  unfold is_tmpfs anyLineMatches
  constructor
  · intro h
    have hb : (contentLines c).any (fun l => lineMatches l p) = true := Except.ok.inj h
    obtain ⟨l, hl, hm⟩ := List.any_eq_true.mp hb
    exact ⟨l, hl, (lineMatches_iff l p).mp hm⟩
  · rintro ⟨l, hl, hm⟩
    have hb : (contentLines c).any (fun l => lineMatches l p) = true :=
      List.any_eq_true.mpr ⟨l, hl, (lineMatches_iff l p).mpr hm⟩
    show Except.ok ((contentLines c).any fun l => lineMatches l p) = Except.ok true
    rw [hb]

/-- C2: the orchestrator processes the table in order; on the first entry
whose `mount_tmpfs` call fails it returns that error immediately: the final
state is the failing call's state (earlier entries' changes are kept) and
the trace is exactly the earlier entries' trace followed by the failing
entry's — no later entry of the table is attempted. -/
theorem mount_essential_tmpfs_fail_fast (o : Oracle) (w : World)
    (l1 : List TmpfsMount) (cfg : TmpfsMount) (l2 : List TmpfsMount) (e : String)
    (hsplit : TMPFS_MOUNTS = l1 ++ cfg :: l2)
    (hpre : (runMounts o l1 w).result = Except.ok ())
    (hfail : (mount_tmpfs o cfg (runMounts o l1 w).world).result = Except.error e) :
    mount_essential_tmpfs o w =
      { result := Except.error e,
        world := (mount_tmpfs o cfg (runMounts o l1 w).world).world,
        trace := (runMounts o l1 w).trace
                  ++ (mount_tmpfs o cfg (runMounts o l1 w).world).trace } := by
  unfold mount_essential_tmpfs
  rw [hsplit]
  exact runMounts_fail_fast o l1 w cfg l2 e hpre hfail

/-- Witness for C2: with `mount` failing on `/var/tmp` (cause `ENODEV`) from
a clean state, the orchestrator stops at the second entry with that error. -/
theorem mount_essential_tmpfs_fail_fast_witness :
    mount_essential_tmpfs oracleMountFailVarTmp wClean =
      { result := Except.error "Failed to mount tmpfs on /var/tmp: ENODEV",
        world := (mount_tmpfs oracleMountFailVarTmp { path := "/var/tmp", mode := 0o1777 }
          (runMounts oracleMountFailVarTmp [{ path := "/tmp", mode := 0o1777 }] wClean).world).world,
        trace := (runMounts oracleMountFailVarTmp [{ path := "/tmp", mode := 0o1777 }] wClean).trace
          ++ (mount_tmpfs oracleMountFailVarTmp { path := "/var/tmp", mode := 0o1777 }
              (runMounts oracleMountFailVarTmp [{ path := "/tmp", mode := 0o1777 }] wClean).world).trace } :=
  mount_essential_tmpfs_fail_fast oracleMountFailVarTmp wClean
    [{ path := "/tmp", mode := 0o1777 }] { path := "/var/tmp", mode := 0o1777 }
    [{ path := "/run", mode := 0o755 }] "Failed to mount tmpfs on /var/tmp: ENODEV"
    rfl rfl rfl

/-- C6: when the mount operation fails, `mount_tmpfs` attempts the diagnostic
read of the kernel mount table (the `readDiag` event is in the trace) and
returns the original mount error, whose message names the entry's path and
the OS cause. The statement quantifies over every world, readable or
unreadable mount-table resource alike, so a failing diagnostic read never
replaces or suppresses the mount error. -/
theorem mount_tmpfs_mount_fail_diag (o : Oracle) (cfg : TmpfsMount) (w : World)
    (m : String)
    (hnot : is_tmpfs_at w cfg.path = Except.ok false)
    (hmount : o.mountErr cfg.path = some m)
    (hdir : pathExists w cfg.path = true ∨ o.mkdirErr cfg.path = none) :
    (mount_tmpfs o cfg w).result =
        Except.error ("Failed to mount tmpfs on " ++ cfg.path ++ ": " ++ m) ∧
      Event.readDiag ∈ (mount_tmpfs o cfg w).trace := by
  have hd : ∃ w1 t1, ensureDir o cfg w = Except.ok (w1, t1) := by
    rcases hdir with hex | hmk
    · exact ⟨w, [], ensureDir_exists o cfg w hex⟩
    · by_cases hex : pathExists w cfg.path = true
      · exact ⟨w, [], ensureDir_exists o cfg w hex⟩
      · exact ⟨_, _, ensureDir_mkdir o cfg w (Bool.not_eq_true _ ▸ eq_false_of_ne_true hex) hmk⟩
  obtain ⟨w1, t1, hd⟩ := hd
  rw [mount_tmpfs_mount_err o cfg w w1 t1 m hnot hd hmount]
  exact ⟨rfl, by simp⟩

/-- Witness for C6: `mount` fails on `/tmp` in the state where the mount
table resource itself is unreadable — the diagnostic read fails, yet the
returned error is the original mount error. -/
theorem mount_tmpfs_mount_fail_diag_witness :
    (mount_tmpfs
        { mkdirErr := fun _ => none, mountErr := fun _ => some "EINVAL",
          chmodErr := fun _ => none }
        { path := "/tmp", mode := 0o1777 } wUnread).result =
      Except.error "Failed to mount tmpfs on /tmp: EINVAL" ∧
    Event.readDiag ∈ (mount_tmpfs
        { mkdirErr := fun _ => none, mountErr := fun _ => some "EINVAL",
          chmodErr := fun _ => none }
        { path := "/tmp", mode := 0o1777 } wUnread).trace :=
  mount_tmpfs_mount_fail_diag
    { mkdirErr := fun _ => none, mountErr := fun _ => some "EINVAL",
      chmodErr := fun _ => none }
    { path := "/tmp", mode := 0o1777 } wUnread "EINVAL" rfl rfl (Or.inr rfl)

theorem mount_tmpfs_mountOp_inv (o : Oracle) (cfg : TmpfsMount) (w : World)
    (s t ft : String) (fl : List String) (d : Option String)
    (hmem : Event.mountOp s t ft fl d ∈ (mount_tmpfs o cfg w).trace) :
    s = "tmpfs" ∧ t = cfg.path ∧ ft = "tmpfs" ∧ fl = [] ∧ d = none := by
  obtain ⟨b, hb⟩ := is_tmpfs_at_isOk w cfg.path
  cases b
  · cases hd : ensureDir o cfg w with
    | error e =>
      rw [mount_tmpfs_dir_err o cfg w e hb hd] at hmem
      simp at hmem
    | ok p =>
      obtain ⟨w1, t1⟩ := p
      have ht1 := ensureDir_ok_trace o cfg w w1 t1 hd
      cases hm : o.mountErr cfg.path with
      | some m =>
        rw [mount_tmpfs_mount_err o cfg w w1 t1 m hb hd hm] at hmem
        rcases ht1 with h | h <;> rw [h] at hmem <;> simp at hmem
      | none =>
        cases hc : o.chmodErr cfg.path with
        | some m =>
          rw [mount_tmpfs_chmod_err o cfg w w1 t1 m hb hd hm hc] at hmem
          rcases ht1 with h | h <;> rw [h] at hmem <;> simp at hmem <;> tauto
        | none =>
          rw [mount_tmpfs_go_ok o cfg w w1 t1 hb hd hm hc] at hmem
          rcases ht1 with h | h <;> rw [h] at hmem <;> simp at hmem <;> tauto
  · rw [mount_tmpfs_skip o cfg w hb] at hmem
    simp at hmem

/-- C8: for an entry not already mounted, the executor follows the fixed
step order: create the directory when missing, then mount, then set the
permission bits; every mount request it ever issues carries source
`"tmpfs"`, fstype `"tmpfs"`, the empty flag set and no data; and a
directory-creation failure is fatal for the entry, reported with the path
and its cause, before any mount or permission operation. -/
theorem mount_tmpfs_step_order (o : Oracle) (cfg : TmpfsMount) (w : World) :
    (is_tmpfs_at w cfg.path = Except.ok false → o.mountErr cfg.path = none →
      o.chmodErr cfg.path = none →
      ((pathExists w cfg.path = true →
          (mount_tmpfs o cfg w).trace =
            [Event.mountOp "tmpfs" cfg.path "tmpfs" [] none,
             Event.chmod cfg.path cfg.mode]) ∧
       (pathExists w cfg.path = false → o.mkdirErr cfg.path = none →
          (mount_tmpfs o cfg w).trace =
            [Event.mkdir cfg.path, Event.mountOp "tmpfs" cfg.path "tmpfs" [] none,
             Event.chmod cfg.path cfg.mode]))) ∧
    (∀ m, is_tmpfs_at w cfg.path = Except.ok false → pathExists w cfg.path = false →
      o.mkdirErr cfg.path = some m →
      mount_tmpfs o cfg w =
        { result := Except.error ("Failed to create " ++ cfg.path ++ ": " ++ m),
          world := w, trace := [] }) ∧
    (∀ (s t ft : String) (fl : List String) (d : Option String),
      Event.mountOp s t ft fl d ∈ (mount_tmpfs o cfg w).trace →
      fl = [] ∧ s = "tmpfs" ∧ ft = "tmpfs" ∧ d = none) := by
  refine ⟨?_, ?_, ?_⟩
  · intro hnot hm hc
    constructor
    · intro hex
      rw [mount_tmpfs_go_ok o cfg w w [] hnot (ensureDir_exists o cfg w hex) hm hc]
      rfl
    · intro hex hmk
      rw [mount_tmpfs_go_ok o cfg w _ _ hnot (ensureDir_mkdir o cfg w hex hmk) hm hc]
      rfl
  · intro m hnot hex hmk
    exact mount_tmpfs_dir_err o cfg w _ hnot (ensureDir_fail o cfg w m hex hmk)
  · intro s t ft fl d hmem
    obtain ⟨h1, _, h3, h4, h5⟩ := mount_tmpfs_mountOp_inv o cfg w s t ft fl d hmem
    exact ⟨h4, h1, h3, h5⟩

/-- Witness for C8: from the clean state, mounting `/tmp` performs exactly
create-directory, flagless mount, set-permissions, in that order; and with
`create_dir_all` failing the entry fails fatally with the path and cause. -/
theorem mount_tmpfs_step_order_witness :
    (mount_tmpfs oracleOk { path := "/tmp", mode := 0o1777 } wClean).trace =
      [Event.mkdir "/tmp", Event.mountOp "tmpfs" "/tmp" "tmpfs" [] none,
       Event.chmod "/tmp" 0o1777] ∧
    mount_tmpfs oracleMkdirFail { path := "/tmp", mode := 0o1777 } wClean =
      { result := Except.error "Failed to create /tmp: EACCES",
        world := wClean, trace := [] } := by
  constructor
  · exact ((mount_tmpfs_step_order oracleOk
      { path := "/tmp", mode := 0o1777 } wClean).1 rfl rfl rfl).2 rfl rfl
  · exact (mount_tmpfs_step_order oracleMkdirFail
      { path := "/tmp", mode := 0o1777 } wClean).2.1 "EACCES" rfl rfl rfl

/-- C10: when the mount succeeds but setting permissions fails,
`mount_tmpfs` returns an error naming the entry's path while the tmpfs
mount just performed stays in the kernel mount table, any directory created
stays, and no permission bits are recorded — nothing is rolled back. -/
theorem mount_tmpfs_chmod_fail_no_rollback (o : Oracle) (cfg : TmpfsMount)
    (w : World) (m : String)
    (hnot : is_tmpfs_at w cfg.path = Except.ok false)
    (hdir : pathExists w cfg.path = true ∨ o.mkdirErr cfg.path = none)
    (hmount : o.mountErr cfg.path = none)
    (hch : o.chmodErr cfg.path = some m) :
    (mount_tmpfs o cfg w).result =
        Except.error ("Failed to set permissions on " ++ cfg.path ++ ": " ++ m) ∧
      (mount_tmpfs o cfg w).world.mountTable = (cfg.path, "tmpfs") :: w.mountTable ∧
      (mount_tmpfs o cfg w).world.perms = w.perms ∧
      (∀ dd, dd ∈ w.dirs → dd ∈ (mount_tmpfs o cfg w).world.dirs) ∧
      pathExists (mount_tmpfs o cfg w).world cfg.path = true := by
  have hd : ∃ w1 t1, ensureDir o cfg w = Except.ok (w1, t1) := by
    rcases hdir with hex | hmk
    · exact ⟨w, [], ensureDir_exists o cfg w hex⟩
    · by_cases hex : pathExists w cfg.path = true
      · exact ⟨w, [], ensureDir_exists o cfg w hex⟩
      · exact ⟨_, _, ensureDir_mkdir o cfg w (eq_false_of_ne_true hex) hmk⟩
  obtain ⟨w1, t1, hd⟩ := hd
  obtain ⟨hp1, ht1, hq1, hdirs1⟩ := ensureDir_ok_fields o cfg w w1 t1 hd
  have hw : (mount_tmpfs o cfg w).world =
      { w1 with mountTable := (cfg.path, "tmpfs") :: w1.mountTable } := by
    rw [mount_tmpfs_chmod_err o cfg w w1 t1 m hnot hd hmount hch]
  refine ⟨?_, ?_, ?_, ?_, ?_⟩
  · rw [mount_tmpfs_chmod_err o cfg w w1 t1 m hnot hd hmount hch]
  · rw [hw]
    show (cfg.path, "tmpfs") :: w1.mountTable = (cfg.path, "tmpfs") :: w.mountTable
    rw [ht1]
  · rw [hw]
    show w1.perms = w.perms
    exact hq1
  · intro dd hdd
    rw [hw]
    show dd ∈ w1.dirs
    rcases hdirs1 with h | h
    · rw [h]; exact hdd
    · rw [h]; exact List.mem_cons_of_mem _ hdd
  · rw [hw]
    exact pathExists_of_mem _ cfg.path "tmpfs" (List.mem_cons_self _ _)

/-- Witness for C10: from the clean state with `set_permissions` failing on
`/tmp`, the error names the path while the tmpfs mount stays in place. -/
theorem mount_tmpfs_chmod_fail_no_rollback_witness :
    (mount_tmpfs oracleChmodFail { path := "/tmp", mode := 0o1777 } wClean).result =
        Except.error "Failed to set permissions on /tmp: EPERM" ∧
      (mount_tmpfs oracleChmodFail { path := "/tmp", mode := 0o1777 } wClean).world.mountTable
        = [("/tmp", "tmpfs")] ∧
      pathExists (mount_tmpfs oracleChmodFail { path := "/tmp", mode := 0o1777 } wClean).world
        "/tmp" = true := by
  obtain ⟨h1, h2, -, -, h5⟩ := mount_tmpfs_chmod_fail_no_rollback oracleChmodFail
    { path := "/tmp", mode := 0o1777 } wClean "EPERM" rfl (Or.inr rfl) rfl rfl
  exact ⟨h1, h2, h5⟩

theorem runMounts_all_skip (o : Oracle) (l : List TmpfsMount) : ∀ w : World,
    (∀ cfg ∈ l, is_tmpfs_at w cfg.path = Except.ok true) →
    runMounts o l w = { result := Except.ok (), world := w, trace := [] } := by
  induction l with
  | nil => intro w _; exact runMounts_nil o w
  | cons c r ih =>
    intro w h
    have hs := mount_tmpfs_skip o c w (h c (List.mem_cons_self c r))
    have hres : (mount_tmpfs o c w).result = Except.ok () := by rw [hs]
    have hw : (mount_tmpfs o c w).world = w := by rw [hs]
    have htr : (mount_tmpfs o c w).trace = [] := by rw [hs]
    rw [runMounts_cons_ok o c r w hres, hw, htr,
      ih w (fun cfg hm => h cfg (List.mem_cons_of_mem c hm))]
    rfl

theorem runMounts_all_already (o : Oracle) (l : List TmpfsMount) : ∀ w : World,
    w.procReadable = true →
    (∀ cfg ∈ l, lineMatches (renderLine (cfg.path, "tmpfs")) cfg.path = true) →
    (runMounts o l w).result = Except.ok () →
    ∀ cfg ∈ l, alreadyTmpfs (runMounts o l w).world cfg.path = true := by
  induction l with
  | nil => intro w _ _ _ cfg hm; exact absurd hm (List.not_mem_nil cfg)
  | cons c r ih =>
    intro w hproc hline hok cfg hm
    have hc : (mount_tmpfs o c w).result = Except.ok () := runMounts_ok_head o c r w hok
    have hr : (runMounts o r (mount_tmpfs o c w).world).result = Except.ok () :=
      runMounts_ok_tail o c r w hok
    have hW : (runMounts o (c :: r) w).world
        = (runMounts o r (mount_tmpfs o c w).world).world := by
      rw [runMounts_cons_ok o c r w hc]
    rw [hW]
    have hp1 : (mount_tmpfs o c w).world.procReadable = true := by
      rw [(mount_tmpfs_shape o c w).1, hproc]
    rcases List.mem_cons.mp hm with rfl | hm2
    · have ha := step_alreadyTmpfs_self o cfg w hc hproc (hline cfg (List.mem_cons_self cfg r))
      obtain ⟨hp2, ht2⟩ := runMounts_shape o r (mount_tmpfs o cfg w).world
      exact alreadyTmpfs_mono _ _ _ hp2 ht2 ha
    · exact ih (mount_tmpfs o c w).world hp1
        (fun cfg2 hm3 => hline cfg2 (List.mem_cons_of_mem c hm3)) hr cfg hm2

theorem runMounts_preserves_permOf (o : Oracle) (l : List TmpfsMount) :
    ∀ (w : World) (p : String),
    (runMounts o l w).result = Except.ok () →
    (∀ c ∈ l, (c.path == p) = false) →
    permOf (runMounts o l w).world p = permOf w p := by
  induction l with
  | nil => intro w p _ _; rfl
  | cons c r ih =>
    intro w p hok hne
    have hc := runMounts_ok_head o c r w hok
    have hr := runMounts_ok_tail o c r w hok
    have hW : (runMounts o (c :: r) w).world
        = (runMounts o r (mount_tmpfs o c w).world).world := by
      rw [runMounts_cons_ok o c r w hc]
    rw [hW, ih (mount_tmpfs o c w).world p hr
        (fun c3 h3 => hne c3 (List.mem_cons_of_mem c h3)),
      step_preserves_permOf_ne o c w p hc (hne c (List.mem_cons_self c r))]

theorem step_mem_self (o : Oracle) (cfg : TmpfsMount) (w : World)
    (hok : (mount_tmpfs o cfg w).result = Except.ok ())
    (hfc : alreadyTmpfs w cfg.path = true → (cfg.path, "tmpfs") ∈ w.mountTable) :
    (cfg.path, "tmpfs") ∈ (mount_tmpfs o cfg w).world.mountTable := by
  rcases mount_tmpfs_ok_cases o cfg w hok with ⟨hb, heq⟩ | ⟨-, w1, t1, hd, -, -, heq⟩
  · have hw : (mount_tmpfs o cfg w).world = w := by rw [heq]
    rw [hw]
    exact hfc (alreadyTmpfs_of_is_tmpfs_at_true w cfg.path hb)
  · have hw : (mount_tmpfs o cfg w).world =
        { w1 with mountTable := (cfg.path, "tmpfs") :: w1.mountTable,
                  perms := (cfg.path, cfg.mode) :: w1.perms } := by rw [heq]
    rw [hw]
    exact List.mem_cons_self _ _

theorem runMounts_invariant (o : Oracle) (l : List TmpfsMount) : ∀ w : World,
    (∀ c ∈ l, alreadyTmpfs w c.path = true → (c.path, "tmpfs") ∈ w.mountTable) →
    List.Pairwise SepEntries l →
    (runMounts o l w).result = Except.ok () →
    ∀ c ∈ l, (c.path, "tmpfs") ∈ (runMounts o l w).world.mountTable ∧
      (alreadyTmpfs w c.path = false →
        permOf (runMounts o l w).world c.path = some c.mode) := by
  induction l with
  | nil => intro w _ _ _ c hm; exact absurd hm (List.not_mem_nil c)
  | cons c r ih =>
    intro w hfaith hsep hok c2 hm
    have hc : (mount_tmpfs o c w).result = Except.ok () := runMounts_ok_head o c r w hok
    have hr : (runMounts o r (mount_tmpfs o c w).world).result = Except.ok () :=
      runMounts_ok_tail o c r w hok
    obtain ⟨hsepc, hsepr⟩ := List.pairwise_cons.mp hsep
    have hW : (runMounts o (c :: r) w).world
        = (runMounts o r (mount_tmpfs o c w).world).world := by
      rw [runMounts_cons_ok o c r w hc]
    rw [hW]
    rcases List.mem_cons.mp hm with rfl | hm2
    · constructor
      · have h1 : (c2.path, "tmpfs") ∈ (mount_tmpfs o c2 w).world.mountTable :=
          step_mem_self o c2 w hc (hfaith c2 (List.mem_cons_self c2 r))
        obtain ⟨-, ⟨l2, hl2⟩⟩ := runMounts_shape o r (mount_tmpfs o c2 w).world
        rw [hl2]
        exact List.mem_append_right l2 h1
      · intro hnot
        have h1 : permOf (mount_tmpfs o c2 w).world c2.path = some c2.mode :=
          step_permOf_self o c2 w hc hnot
        have h2 : permOf (runMounts o r (mount_tmpfs o c2 w).world).world c2.path
            = permOf (mount_tmpfs o c2 w).world c2.path :=
          runMounts_preserves_permOf o r (mount_tmpfs o c2 w).world c2.path hr
            (fun c3 hm3 => (hsepc c3 hm3).2.2.2)
        rw [h2, h1]
    · have hstepinv : ∀ c3 ∈ r,
          alreadyTmpfs (mount_tmpfs o c w).world c3.path = alreadyTmpfs w c3.path :=
        fun c3 hm3 => step_preserves_alreadyTmpfs_ne o c w c3.path hc (hsepc c3 hm3).1
      have hfaith2 : ∀ c3 ∈ r,
          alreadyTmpfs (mount_tmpfs o c w).world c3.path = true →
          (c3.path, "tmpfs") ∈ (mount_tmpfs o c w).world.mountTable := by
        intro c3 hm3 ha
        rw [hstepinv c3 hm3] at ha
        exact step_mem_mountTable o c w _ (hfaith c3 (List.mem_cons_of_mem c hm3) ha)
      obtain ⟨hmem2, hperm2⟩ := ih (mount_tmpfs o c w).world hfaith2 hsepr hr c2 hm2
      refine ⟨hmem2, fun hnot => hperm2 ?_⟩
      rw [hstepinv c2 hm2, hnot]

/-- C3 (amended): if the inspector reports an entry's path as already
tmpfs-mounted, `mount_tmpfs` returns success at once with no directory
creation, no mount, no permission change (empty trace, world untouched);
consequently — provided the kernel mount-table resource is readable — a
second orchestrator run over a state in which a first run succeeded performs
zero mount and zero permission-set operations (its trace is empty and the
state is unchanged) and still returns success. -/
theorem mount_tmpfs_idempotent (o o2 : Oracle) (w : World) :
    (∀ cfg : TmpfsMount, is_tmpfs_at w cfg.path = Except.ok true →
      mount_tmpfs o cfg w = { result := Except.ok (), world := w, trace := [] }) ∧
    (w.procReadable = true → (mount_essential_tmpfs o w).result = Except.ok () →
      mount_essential_tmpfs o2 (mount_essential_tmpfs o w).world =
        { result := Except.ok (), world := (mount_essential_tmpfs o w).world,
          trace := [] }) := by
  constructor
  · exact fun cfg h => mount_tmpfs_skip o cfg w h
  · intro hproc hok
    unfold mount_essential_tmpfs at hok ⊢
    have hall : ∀ cfg ∈ TMPFS_MOUNTS,
        alreadyTmpfs (runMounts o TMPFS_MOUNTS w).world cfg.path = true :=
      runMounts_all_already o TMPFS_MOUNTS w hproc (by decide) hok
    exact runMounts_all_skip o2 TMPFS_MOUNTS _
      (fun cfg hm => is_tmpfs_at_true_of _ _ (hall cfg hm))

/-- Witness for C3: a second run after a successful run from the clean state
is a no-op, and a single entry already tmpfs-mounted is skipped outright. -/
theorem mount_tmpfs_idempotent_witness :
    mount_essential_tmpfs oracleOk (mount_essential_tmpfs oracleOk wClean).world =
      { result := Except.ok (), world := (mount_essential_tmpfs oracleOk wClean).world,
        trace := [] } ∧
    mount_tmpfs oracleOk { path := "/tmp", mode := 0o1777 } wAlready =
      { result := Except.ok (), world := wAlready, trace := [] } := by
  constructor
  · exact (mount_tmpfs_idempotent oracleOk oracleOk wClean).2 rfl rfl
  · exact (mount_tmpfs_idempotent oracleOk oracleOk wAlready).1
      { path := "/tmp", mode := 0o1777 } rfl

/-- Counterexample to C3 as stated: from `wUnread` (kernel mount-table
resource unreadable, nothing mounted) a first orchestrator run succeeds,
yet a second run over the resulting state performs mount and permission-set
operations again — the inspector still reports "not mounted" because the
resource is unreadable, so the no-op consequence does not hold
unconditionally over all states in which the first run succeeded. -/
theorem mount_essential_tmpfs_second_run_cex :
    (mount_essential_tmpfs oracleOk wUnread).result = Except.ok () ∧
    Event.mountOp "tmpfs" "/tmp" "tmpfs" [] none ∈
      (mount_essential_tmpfs oracleOk
        (mount_essential_tmpfs oracleOk wUnread).world).trace ∧
    Event.chmod "/tmp" 0o1777 ∈
      (mount_essential_tmpfs oracleOk
        (mount_essential_tmpfs oracleOk wUnread).world).trace := by
  refine ⟨rfl, ?_, ?_⟩ <;> decide

/-- C1 (amended): assume the initial state is faithful (when the rendered
mount table makes the inspector report one of the three configured paths as
tmpfs, that path really is tmpfs-mounted in the kernel table). Then after a
successful orchestrator run, every configured entry's path exists and is
backed by tmpfs in the kernel mount table; and every entry that was NOT
already tmpfs-mounted at the start has permission bits exactly its
configured mode. Entries already tmpfs-mounted at the start are skipped, so
their pre-existing permission bits are left as they were (see the
counterexample for the unamended claim). -/
theorem mount_essential_tmpfs_invariant (o : Oracle) (w : World)
    (hfaith : ∀ cfg ∈ TMPFS_MOUNTS,
      alreadyTmpfs w cfg.path = true → (cfg.path, "tmpfs") ∈ w.mountTable)
    (hok : (mount_essential_tmpfs o w).result = Except.ok ()) :
    ∀ cfg ∈ TMPFS_MOUNTS,
      pathExists (mount_essential_tmpfs o w).world cfg.path = true ∧
      (cfg.path, "tmpfs") ∈ (mount_essential_tmpfs o w).world.mountTable ∧
      (alreadyTmpfs w cfg.path = false →
        permOf (mount_essential_tmpfs o w).world cfg.path = some cfg.mode) := by
  unfold mount_essential_tmpfs at hok ⊢
  intro cfg hm
  have hsep : List.Pairwise SepEntries TMPFS_MOUNTS := by
    refine List.Pairwise.cons ?_ (List.Pairwise.cons ?_
      (List.Pairwise.cons ?_ List.Pairwise.nil)) <;> decide
  obtain ⟨hmem, hperm⟩ := runMounts_invariant o TMPFS_MOUNTS w hfaith hsep hok cfg hm
  exact ⟨pathExists_of_mem _ _ _ hmem, hmem, hperm⟩

/-- Witness for C1: from the partially-mounted state `wAlready` (where
`/tmp` is already tmpfs), the run succeeds and `/var/tmp` — not previously
mounted — ends up existing, tmpfs-backed, with permission bits `0o1777`. -/
theorem mount_essential_tmpfs_invariant_witness :
    pathExists (mount_essential_tmpfs oracleOk wAlready).world "/var/tmp" = true ∧
    ("/var/tmp", "tmpfs") ∈ (mount_essential_tmpfs oracleOk wAlready).world.mountTable ∧
    (alreadyTmpfs wAlready "/var/tmp" = false →
      permOf (mount_essential_tmpfs oracleOk wAlready).world "/var/tmp" = some 0o1777) :=
  mount_essential_tmpfs_invariant oracleOk wAlready (by decide) rfl
    { path := "/var/tmp", mode := 0o1777 } (by decide)

/-- Counterexample to C1 as stated: start from `wAlready`, where `/tmp` is
already tmpfs-mounted but carries permission bits `0o777` instead of the
configured `0o1777`. The orchestrator run succeeds, yet afterwards `/tmp`
still has bits `0o777` ≠ `0o1777`: the permission clause of the invariant
fails for runs started from a partially-mounted state with wrong bits. -/
theorem mount_essential_tmpfs_invariant_cex :
    (mount_essential_tmpfs oracleOk wAlready).result = Except.ok () ∧
    { path := "/tmp", mode := 0o1777 } ∈ TMPFS_MOUNTS ∧
    permOf (mount_essential_tmpfs oracleOk wAlready).world "/tmp" = some 0o777 ∧
    permOf (mount_essential_tmpfs oracleOk wAlready).world "/tmp" ≠ some 0o1777 :=
  ⟨rfl, by decide, by decide, by decide⟩
